import Mathlib

/-!
Verification development for the GAME_matcher repository.

The repository's core is the chunked tournament matching engine
`process_request_with_chunking` (present, with identical control flow, in
src/llm_matcher_v2/ollama_matcher.py and src/rest_llm_matcher/ollama_matcher.py),
the pydantic request validators of src/rest_llm_matcher/matcher_rest_api.py, and
the framed socket session loop `handle_client` of
src/llm_matcher_v2/matcher_server.py.

The external LLM is modelled as an opaque oracle: a function from the call index
and the offered candidate list to the parsed answer string (or `none` for any
raised exception / unparseable reply).  The call index makes the model cover
nondeterministic oracles: any sequence of replies is a function of the index.
All definitions below are structurally recursive so that concrete runs evaluate
inside the kernel.
-/

namespace GameMatcher

/-- `MATCHER_VERSION = "2.0"` (src/llm_matcher_v2/ollama_matcher.py, line 8). -/
def MATCHER_VERSION : String := "2.0"

/-- One oracle invocation as seen by the matcher after prompt construction,
`json.loads` of the reply and `response_json.get(actual_key, "NULL")`.
The first argument is the index of the call (so a nondeterministic oracle is a
function of the call index); the second is the candidate list offered in that
call.  `none` stands for a raised exception or an unparseable reply (the
`except` branches of the source); `some m` for the parsed answer string (the
`.get` default makes this `"NULL"` when the key is absent). -/
def Oracle : Type := Nat → List String → Option String

/-- Worker for `chunksOf`, structurally recursive on an explicit fuel.
The fuel starts at the length of the list; since every step removes at least
one element when `1 ≤ K`, the fuel-exhausted branch is unreachable for the
chunk sizes the source can run with (a chunk size of `0` makes the source's
`range(0, len, 0)` raise `ValueError`). -/
def chunksOfGo (K : Nat) : Nat → List String → List (List String)
  | _, [] => []
  | 0, l => [l]
  | fuel + 1, l => l.take K :: chunksOfGo K fuel (l.drop K)

/-- `chunks = [choices_list[i:i + list_chunk_size] for i in range(0, len(choices_list), list_chunk_size)]`
(ollama_matcher.py, line 227 and line 276): contiguous left-to-right slices of
size at most `K`. -/
def chunksOf (K : Nat) (l : List String) : List (List String) :=
  chunksOfGo K l.length l

/-- The per-chunk acceptance test of the source (lines 255-264 and 299-308):
`match = response_json.get(actual_key, "NULL")`; a falsy (empty) or `"NULL"`
answer is a decline, an answer not in the chunk is a discarded fabrication, and
only an exact member of the chunk becomes that chunk's champion. -/
def chunkWinner (ans : Option String) (chunk : List String) : Option String :=
  match ans with
  | none => none
  | some m =>
    if m ≠ "" ∧ m ≠ "NULL" then
      if m ∈ chunk then some m else none
    else none

/-- The `for i, chunk in enumerate(chunks)` loop of a tournament round: one
oracle call per chunk (the call counter advances even when the call raises),
collecting the accepted champions in chunk order. -/
def collectChamps (o : Oracle) : List (List String) → Nat → List String × Nat
  | [], n => ([], n)
  | c :: cs, n =>
    let rest := collectChamps o cs (n + 1)
    match chunkWinner (o n c) c with
    | some x => (x :: rest.1, rest.2)
    | none => rest

/-- One full tournament round over `cands`: chunk, ask the oracle once per
chunk, keep the verified champions.  Returns the champion list (in chunk
order, duplicates possible) and the advanced call counter. -/
def runRound (o : Oracle) (K : Nat) (cands : List String) (n : Nat) :
    List String × Nat :=
  collectChamps o (chunksOf K cands) n

/-- Lexicographic code-point comparison of character lists: exactly Python's
string ordering, used by `sorted`. -/
def charListLe : List Char → List Char → Bool
  | [], _ => true
  | _ :: _, [] => false
  | c :: cs, d :: ds =>
    if c.toNat < d.toNat then true
    else if d.toNat < c.toNat then false
    else charListLe cs ds

/-- Python's `a <= b` on strings: lexicographic by code point. -/
def strLe (a b : String) : Bool := charListLe a.data b.data

/-- `sorted(list(set(champs)))` (lines 271 and 313): the deduplicated,
lexicographically sorted champion set.  Since the deduplicated list has no
duplicates, its sorted permutation is unique, so any correct sort models
Python's `sorted`. -/
def sortDedup (l : List String) : List String :=
  List.insertionSort (fun a b => strLe a b = true) l.dedup

/-- The `while len(unique_champions) > list_chunk_size:` championship loop
(lines 273-313).  For chunk sizes below 2 the loop need not terminate (proved
below), so the model carries explicit fuel; `none` stands for a run that does
not finish within the fuel bound.  For `2 ≤ K` a fuel exceeding the current
set's size always suffices (proved below), and `processCategory` supplies it. -/
def champLoopF (o : Oracle) (K : Nat) : Nat → List String → Nat → Option (List String × Nat)
  | 0, _, _ => none
  | fuel + 1, uniq, n =>
    if K < uniq.length then
      let r := runRound o K uniq n
      champLoopF o K fuel (sortDedup r.1) r.2
    else
      some (uniq, n)

/-- The FINAL DECISION block (lines 315-348): 0 unique champions give `"NULL"`;
exactly 1 is returned directly with no oracle call; 2 or more trigger one final
oracle call over the full surviving set, whose answer is forced to `"NULL"`
unless it is a member of that set (the guard at lines 342-344; a raised
exception leaves the initialised `"NULL"`). -/
def finalDecision (o : Oracle) (uniq : List String) (n : Nat) : String × Nat :=
  match uniq with
  | [] => ("NULL", n)
  | [w] => (w, n)
  | _ :: _ :: _ =>
    match o n uniq with
    | none => ("NULL", n + 1)
    | some a => if a ∈ uniq then (a, n + 1) else ("NULL", n + 1)

/-- One category's complete tournament (lines 227-348), from the normalised
choices list to the final answer: round 0 over the chunked candidates, the
championship loop over the sorted deduplicated champions, then the final
decision.  The result also carries the advanced oracle-call counter. -/
def processCategory (o : Oracle) (K : Nat) (choices : List String) (n : Nat) :
    Option (String × Nat) :=
  let r0 := runRound o K choices n
  let uniq := sortDedup r0.1
  match champLoopF o K (uniq.length + 1) uniq r0.2 with
  | none => none
  | some (u, m) => some (finalDecision o u m)

/-- The value found under a `<category>_list` key: the source accepts either a
single bare string (wrapped into a one-element list at line 212-213) or a list
of strings. -/
inductive ReqValue : Type
  | str (s : String)
  | list (l : List String)
deriving DecidableEq

/-- Python truthiness of the raw `<category>_list` value, as used by the
`if not input_term or not choices_list:` skip test (line 203): an empty string
or an empty list is falsy. -/
def isFalsy : ReqValue → Bool
  | .str s => s == ""
  | .list l => l.isEmpty

/-- The normalisation at lines 212-215: a bare string becomes a one-element
list. -/
def normalizeChoices : ReqValue → List String
  | .str s => [s]
  | .list l => l

/-- The request dictionary as inspected by `process_request_with_chunking`:
only the six recognised keys matter (`<category>_requested`,
`<category>_list` for the three fixed categories); `none` models an absent
key, so a dictionary with no recognised keys is the all-`none` record. -/
structure Request : Type where
  cell_type_requested : Option String
  cell_type_list : Option ReqValue
  binding_molecule_requested : Option String
  binding_molecule_list : Option ReqValue
  species_requested : Option String
  species_list : Option ReqValue
deriving DecidableEq

/-- The response dictionary: each `<category>_actual` key is absent (`none`,
when the request did not contain that category's key pair), present with
Python `None` (`some none`, the empty-input skip at line 205), or present with
a string (`some (some s)`). -/
structure Response : Type where
  cell_type_actual : Option (Option String)
  binding_molecule_actual : Option (Option String)
  species_actual : Option (Option String)
  matcher_version : String
deriving DecidableEq

/-- The per-category body of the dispatcher loop (lines 193-348): skip when
either key is absent (no result key, no oracle call); record Python `None`
when the query or the list is empty (no oracle call); otherwise run the
tournament on the normalised choices. -/
def processPair (o : Oracle) (K : Nat) (req : Option String) (lst : Option ReqValue)
    (n : Nat) : Option (Option (Option String) × Nat) :=
  match req, lst with
  | some input_term, some choices =>
    if input_term = "" ∨ isFalsy choices = true then
      some (some none, n)
    else
      match processCategory o K (normalizeChoices choices) n with
      | none => none
      | some (ans, n') => some (some (some ans), n')
  | _, _ => some (none, n)

/-- `process_request_with_chunking(request_data, list_chunk_size)` (lines
177-354): the dispatcher iterates the fixed prefix order `cell_type`,
`binding_molecule`, `species`, then attaches `matcher_version`.  The outer
`Option` is `none` only when a category's championship loop exhausts its fuel
(possible only for chunk sizes below 2, where the source loops forever). -/
def process_request_with_chunking (o : Oracle) (K : Nat) (r : Request) (n : Nat) :
    Option (Response × Nat) :=
  match processPair o K r.cell_type_requested r.cell_type_list n with
  | none => none
  | some (ct, n1) =>
    match processPair o K r.binding_molecule_requested r.binding_molecule_list n1 with
    | none => none
    | some (bm, n2) =>
      match processPair o K r.species_requested r.species_list n2 with
      | none => none
      | some (sp, n3) => some (⟨ct, bm, sp, MATCHER_VERSION⟩, n3)

/-- The pydantic request model of src/rest_llm_matcher/matcher_rest_api.py
(lines 26-63): six optional fields, validated by the two model validators
below before the endpoint body runs. -/
structure MatcherRequest : Type where
  cell_type_requested : Option String
  cell_type_list : Option (List String)
  species_requested : Option String
  species_list : Option (List String)
  binding_molecule_requested : Option String
  binding_molecule_list : Option (List String)
deriving DecidableEq

/-- Python truthiness of `not self.<category>_list`: `None` and `[]` are
falsy. -/
def optListFalsy : Option (List String) → Bool
  | none => true
  | some l => l.isEmpty

/-- Python truthiness of a `<category>_requested` field inside
`any([...])`: `None` and `""` are falsy. -/
def optStrTruthy : Option String → Bool
  | none => false
  | some s => !(s == "")

/-- `MatcherRequest.check_paired_fields` (matcher_rest_api.py, lines 41-53):
raises (returns `false` here) exactly when some `_requested` field is provided
(`is not None`) while its `_list` is `None` or empty.  Note it inspects only
the `_requested → _list` direction. -/
def check_paired_fields (r : MatcherRequest) : Bool :=
  !(r.cell_type_requested.isSome && optListFalsy r.cell_type_list) &&
  !(r.species_requested.isSome && optListFalsy r.species_list) &&
  !(r.binding_molecule_requested.isSome && optListFalsy r.binding_molecule_list)

/-- `MatcherRequest.check_at_least_one_pair` (matcher_rest_api.py, lines
55-63): `any` over the three `_requested` fields (so a field set to `""` also
counts as absent here). -/
def check_at_least_one_pair (r : MatcherRequest) : Bool :=
  optStrTruthy r.cell_type_requested || optStrTruthy r.species_requested ||
    optStrTruthy r.binding_molecule_requested

/-- `request.model_dump(exclude_unset=True)` handed to the core engine: each
provided list arrives as a Python list. -/
def toCoreRequest (r : MatcherRequest) : Request :=
  ⟨r.cell_type_requested, r.cell_type_list.map ReqValue.list,
   r.binding_molecule_requested, r.binding_molecule_list.map ReqValue.list,
   r.species_requested, r.species_list.map ReqValue.list⟩

/-- The `/match` endpoint (matcher_rest_api.py, lines 101-126): pydantic runs
the two validators before the endpoint body; a validator error rejects the
request (modelled as `Except.error` with an abbreviated message) and the core
engine is never invoked; otherwise the engine runs on the dumped document. -/
def perform_match (o : Oracle) (K : Nat) (r : MatcherRequest) (n : Nat) :
    Except String (Option (Response × Nat)) :=
  if check_paired_fields r = true then
    if check_at_least_one_pair r = true then
      Except.ok (process_request_with_chunking o K (toCoreRequest r) n)
    else
      Except.error "Request must contain at least one category to match."
  else
    Except.error "If a requested field is provided, its list must also be provided and non-empty."

/-- `struct.unpack('>I', b)`: big-endian interpretation of a byte list. -/
def beBytesToNat (bs : List Nat) : Nat :=
  bs.foldl (fun acc b => acc * 256 + b) 0

/-- `struct.pack('>I', n)`: the 4-byte big-endian encoding of a length. -/
def natToBeBytes (n : Nat) : List Nat :=
  [n / 16777216 % 256, n / 65536 % 256, n / 256 % 256, n % 256]

/-- How a `handle_client` session ends (matcher_server.py): `graceful` when the
peer closes before any length-prefix byte (line 30-33); `transportError` for a
short length prefix (`struct.error`, line 102) or a stream that closes
mid-payload (`ConnectionError`, line 50); `documentError` when the complete
payload fails to decode (lines 68-75). -/
inductive SessionExit : Type
  | graceful
  | transportError
  | documentError
deriving DecidableEq

/-- Worker for `handleClient`, structurally recursive on fuel.  One step per
framed request: read the 4-byte prefix (EOF first → graceful close; fewer than
4 bytes → `struct.error`), accumulate exactly `msglen` payload bytes (EOF
before that → `ConnectionError`), decode-and-process via `proc` (`none` models
`json.JSONDecodeError`), frame and send the response, loop.  Every exit path
reports exactly one `client_socket.close()` (the `finally` at lines 110-114),
returned as the final component.  Each successful frame consumes at least 4
bytes, so fuel equal to the stream length never exhausts; the fuel-exhausted
branch is unreachable and classified as a transport error. -/
def handleClientGo (proc : List Nat → Option (List Nat)) :
    Nat → List Nat → List (List Nat) × SessionExit × Nat
  | _, [] => ([], SessionExit.graceful, 1)
  | 0, _ => ([], SessionExit.transportError, 1)
  | fuel + 1, stream =>
    if stream.length < 4 then ([], SessionExit.transportError, 1)
    else
      let msglen := beBytesToNat (stream.take 4)
      let rest := stream.drop 4
      if rest.length < msglen then ([], SessionExit.transportError, 1)
      else
        match proc (rest.take msglen) with
        | none => ([], SessionExit.documentError, 1)
        | some resp =>
          let r := handleClientGo proc fuel (rest.drop msglen)
          ((natToBeBytes resp.length ++ resp) :: r.1, r.2)

/-- `handle_client` (matcher_server.py, lines 16-114) over the byte stream the
peer sends before closing its end: returns the response frames written, the
exit classification, and the number of `close()` calls on the connection.
The model is total, reflecting that `recv` on a closed stream returns
immediately (the session never hangs). -/
def handleClient (proc : List Nat → Option (List Nat)) (stream : List Nat) :
    List (List Nat) × SessionExit × Nat :=
  handleClientGo proc stream.length stream

/-- Deterministic stub oracle: always picks the first offered candidate. -/
def oracleHead : Oracle := fun _ chunk => chunk.head?

/-- Stub oracle whose every call fails (exception or unparseable reply). -/
def oracleNone : Oracle := fun _ _ => none

/-- Stub oracle that always answers the fixed string `s`. -/
def oracleConst (s : String) : Oracle := fun _ _ => some s

/-- 45 distinct candidate names, for the end-to-end call-count scenario. -/
def cands45 : List String := (List.range 45).map (fun i => "x" ++ toString i)

/-! ## Helper lemmas -/

lemma chunksOfGo_subset (K : Nat) :
    ∀ (fuel : Nat) (l c : List String) (x : String),
      c ∈ chunksOfGo K fuel l → x ∈ c → x ∈ l := by
  intro fuel
  induction fuel with
  | zero =>
    intro l c x hc hx
    match l with
    | [] => simp [chunksOfGo] at hc
    | a :: rest =>
      simp only [chunksOfGo, List.mem_singleton] at hc
      subst hc
      exact hx
  | succ fuel ih =>
    intro l c x hc hx
    match l with
    | [] => simp [chunksOfGo] at hc
    | a :: rest =>
      simp only [chunksOfGo, List.mem_cons] at hc
      rcases hc with hc | hc
      · subst hc
        exact List.take_subset _ _ hx
      · exact List.drop_subset _ _ (ih _ _ _ hc hx)

lemma chunkWinner_eq_some {ans : Option String} {c : List String} {x : String}
    (h : chunkWinner ans c = some x) : x ∈ c ∧ x ≠ "" ∧ x ≠ "NULL" := by
  match ans with
  | none => simp [chunkWinner] at h
  | some m =>
    simp only [chunkWinner] at h
    by_cases h1 : m ≠ "" ∧ m ≠ "NULL"
    · rw [if_pos h1] at h
      by_cases h2 : m ∈ c
      · rw [if_pos h2] at h
        have := Option.some.inj h
        subst this
        exact ⟨h2, h1⟩
      · rw [if_neg h2] at h
        cases h
    · rw [if_neg h1] at h
      cases h

lemma collectChamps_mem (o : Oracle) :
    ∀ (cs : List (List String)) (n : Nat) (x : String),
      x ∈ (collectChamps o cs n).1 →
      (∃ c ∈ cs, x ∈ c) ∧ x ≠ "" ∧ x ≠ "NULL" := by
  intro cs
  induction cs with
  | nil => intro n x hx; simp [collectChamps] at hx
  | cons c cs ih =>
    intro n x hx
    simp only [collectChamps] at hx
    cases hw : chunkWinner (o n c) c with
    | none =>
      rw [hw] at hx
      obtain ⟨⟨c', hc', hxc'⟩, hne⟩ := ih (n + 1) x hx
      exact ⟨⟨c', List.mem_cons_of_mem _ hc', hxc'⟩, hne⟩
    | some w =>
      rw [hw] at hx
      rcases List.mem_cons.mp hx with h | h
      · subst h
        obtain ⟨hm, hne⟩ := chunkWinner_eq_some hw
        exact ⟨⟨c, List.mem_cons_self _ _, hm⟩, hne⟩
      · obtain ⟨⟨c', hc', hxc'⟩, hne⟩ := ih (n + 1) x h
        exact ⟨⟨c', List.mem_cons_of_mem _ hc', hxc'⟩, hne⟩

lemma collectChamps_snd (o : Oracle) :
    ∀ (cs : List (List String)) (n : Nat),
      (collectChamps o cs n).2 = n + cs.length := by
  intro cs
  induction cs with
  | nil => intro n; simp [collectChamps]
  | cons c cs ih =>
    intro n
    cases hw : chunkWinner (o n c) c <;>
      simp [collectChamps, hw, ih (n + 1)] <;> omega

lemma collectChamps_length_le (o : Oracle) :
    ∀ (cs : List (List String)) (n : Nat),
      (collectChamps o cs n).1.length ≤ cs.length := by
  intro cs
  induction cs with
  | nil => intro n; simp [collectChamps]
  | cons c cs ih =>
    intro n
    cases hw : chunkWinner (o n c) c <;>
      simp only [collectChamps, hw, List.length_cons]
    · exact Nat.le_succ_of_le (ih (n + 1))
    · exact Nat.succ_le_succ (ih (n + 1))

lemma chunksOfGo_length (K : Nat) (hK : 1 ≤ K) :
    ∀ (fuel : Nat) (l : List String), l.length ≤ fuel →
      (chunksOfGo K fuel l).length = (l.length + K - 1) / K := by
  intro fuel
  induction fuel with
  | zero =>
    intro l hl
    have hnil : l = [] := List.length_eq_zero.mp (Nat.le_zero.mp hl)
    subst hnil
    simp only [chunksOfGo, List.length_nil, Nat.zero_add]
    rw [Nat.div_eq_of_lt (by omega)]
  | succ fuel ih =>
    intro l hl
    match l with
    | [] =>
      simp only [chunksOfGo, List.length_nil, Nat.zero_add]
      rw [Nat.div_eq_of_lt (by omega)]
    | a :: rest =>
      have hdrop : ((a :: rest).drop K).length ≤ fuel := by
        simp only [List.length_drop, List.length_cons]
        simp only [List.length_cons] at hl
        omega
      simp only [chunksOfGo, List.length_cons]
      rw [ih _ hdrop]
      simp only [List.length_drop, List.length_cons]
      by_cases hLK : rest.length + 1 ≤ K
      · have h0 : rest.length + 1 - K = 0 := by omega
        rw [h0]
        have hlhs : (0 + K - 1) / K = 0 := Nat.div_eq_of_lt (by omega)
        have hrhs : (rest.length + 1 + K - 1) / K = 1 :=
          Nat.div_eq_of_lt_le (by omega) (by omega)
        omega
      · have h1 : rest.length + 1 - K + K - 1 = rest.length + 1 - 1 := by omega
        have h2 : rest.length + 1 + K - 1 = (rest.length + 1 - 1) + K := by omega
        rw [h1, h2, Nat.add_div_right _ (by omega : 0 < K)]

lemma chunksOf_length (K : Nat) (hK : 1 ≤ K) (l : List String) :
    (chunksOf K l).length = (l.length + K - 1) / K :=
  chunksOfGo_length K hK l.length l (Nat.le_refl _)

lemma chunksOf_length_lt (K : Nat) (hK : 2 ≤ K) (l : List String) (hl : K < l.length) :
    (chunksOf K l).length < l.length := by
  rw [chunksOf_length K (by omega) l]
  rw [Nat.div_lt_iff_lt_mul (by omega : 0 < K)]
  calc l.length + K - 1 < l.length + l.length := by omega
    _ = l.length * 2 := by omega
    _ ≤ l.length * K := Nat.mul_le_mul (Nat.le_refl _) hK

lemma sortDedup_perm (l : List String) : (sortDedup l).Perm l.dedup :=
  List.perm_insertionSort _ _

lemma mem_sortDedup {x : String} {l : List String} :
    x ∈ sortDedup l ↔ x ∈ l := by
  rw [List.Perm.mem_iff (sortDedup_perm l), List.mem_dedup]

lemma sortDedup_length_le (l : List String) : (sortDedup l).length ≤ l.length := by
  rw [List.Perm.length_eq (sortDedup_perm l)]
  exact List.Sublist.length_le (List.dedup_sublist l)

lemma runRound_subset (o : Oracle) (K : Nat) (u : List String) (n : Nat) :
    ∀ x ∈ (runRound o K u n).1, x ∈ u := by
  intro x hx
  obtain ⟨⟨c, hc, hxc⟩, -⟩ := collectChamps_mem o _ n x hx
  exact chunksOfGo_subset K u.length u c x hc hxc

lemma runRound_not_empty_not_null (o : Oracle) (K : Nat) (u : List String) (n : Nat) :
    ∀ x ∈ (runRound o K u n).1, x ≠ "" ∧ x ≠ "NULL" := by
  intro x hx
  exact (collectChamps_mem o _ n x hx).2

lemma runRound_length_le (o : Oracle) (K : Nat) (u : List String) (n : Nat) :
    (runRound o K u n).1.length ≤ (chunksOf K u).length :=
  collectChamps_length_le o _ n

lemma runRound_snd (o : Oracle) (K : Nat) (u : List String) (n : Nat) :
    (runRound o K u n).2 = n + (chunksOf K u).length :=
  collectChamps_snd o _ n

lemma round_shrinks (o : Oracle) (K : Nat) (u : List String) (n : Nat)
    (hK : 2 ≤ K) (hlen : K < u.length) :
    (sortDedup (runRound o K u n).1).length < u.length := by
  have h1 := sortDedup_length_le (runRound o K u n).1
  have h2 := runRound_length_le o K u n
  have h3 := chunksOf_length_lt K hK u hlen
  omega

lemma champLoopF_subset (o : Oracle) (K : Nat) :
    ∀ (fuel : Nat) (u : List String) (n : Nat) (u' : List String) (n' : Nat),
      champLoopF o K fuel u n = some (u', n') → ∀ x ∈ u', x ∈ u := by
  intro fuel
  induction fuel with
  | zero => intro u n u' n' h; simp [champLoopF] at h
  | succ fuel ih =>
    intro u n u' n' h x hx
    simp only [champLoopF] at h
    split at h
    · have hx' := ih _ _ _ _ h x hx
      exact runRound_subset o K u n x (mem_sortDedup.mp hx')
    · cases h
      exact hx

lemma champLoopF_not_empty_not_null (o : Oracle) (K : Nat) :
    ∀ (fuel : Nat) (u : List String) (n : Nat) (u' : List String) (n' : Nat),
      champLoopF o K fuel u n = some (u', n') →
      ∀ x ∈ u', x ∈ u ∨ (x ≠ "" ∧ x ≠ "NULL") := by
  intro fuel
  induction fuel with
  | zero => intro u n u' n' h; simp [champLoopF] at h
  | succ fuel ih =>
    intro u n u' n' h x hx
    simp only [champLoopF] at h
    split at h
    · rcases ih _ _ _ _ h x hx with h' | h'
      · exact Or.inr (runRound_not_empty_not_null o K u n x (mem_sortDedup.mp h'))
      · exact Or.inr h'
    · cases h
      exact Or.inl hx

lemma champLoopF_isSome (o : Oracle) (K : Nat) (hK : 2 ≤ K) :
    ∀ (fuel : Nat) (u : List String) (n : Nat), u.length < fuel →
      (champLoopF o K fuel u n).isSome = true := by
  intro fuel
  induction fuel with
  | zero => intro u n h; omega
  | succ fuel ih =>
    intro u n h
    simp only [champLoopF]
    split
    · rename_i hgt
      refine ih _ _ ?_
      have := round_shrinks o K u n hK hgt
      omega
    · simp

lemma finalDecision_mem (o : Oracle) (uniq : List String) (n : Nat) :
    (finalDecision o uniq n).1 = "NULL" ∨ (finalDecision o uniq n).1 ∈ uniq := by
  match uniq with
  | [] => exact Or.inl rfl
  | [w] => exact Or.inr (by simp [finalDecision])
  | a :: b :: rest =>
    cases h : o n (a :: b :: rest) with
    | none => simp [finalDecision, h]
    | some x =>
      by_cases hm : x ∈ a :: b :: rest
      · right
        simp only [finalDecision, h, if_pos hm]
        exact hm
      · left
        simp [finalDecision, h, hm]

lemma finalDecision_snd (o : Oracle) (uniq : List String) (n : Nat) :
    (finalDecision o uniq n).2 = n + (if 2 ≤ uniq.length then 1 else 0) := by
  match uniq with
  | [] => simp [finalDecision]
  | [w] => simp [finalDecision]
  | a :: b :: rest =>
    have h2 : 2 ≤ (a :: b :: rest).length := by simp
    cases h : o n (a :: b :: rest) with
    | none => simp [finalDecision, h, h2]
    | some x =>
      by_cases hm : x ∈ a :: b :: rest <;> simp [finalDecision, h, hm, h2]

/-! ## Claim theorems -/

/-- Claim C1: in every tournament round (round 0, the championship rounds, and
the final round) an oracle answer is accepted as a winner only if it is, by
exact string equality, a member of the chunk or set offered in that call; any
value outside the offered set is discarded and never propagated, so every
non-null category result is a member of the original candidate list for that
category. -/
theorem claim_C1_winner_membership :
    (∀ (ans : Option String) (c : List String) (x : String),
        chunkWinner ans c = some x → x ∈ c) ∧
    (∀ (o : Oracle) (u : List String) (n : Nat),
        (finalDecision o u n).1 = "NULL" ∨ (finalDecision o u n).1 ∈ u) ∧
    (∀ (o : Oracle) (K : Nat) (choices : List String) (n : Nat) (ans : String) (n' : Nat),
        processCategory o K choices n = some (ans, n') → ans ≠ "NULL" → ans ∈ choices) := by
  refine ⟨fun ans c x h => (chunkWinner_eq_some h).1,
    fun o u n => finalDecision_mem o u n, ?_⟩
  intro o K choices n ans n' h hne
  simp only [processCategory] at h
  cases hcl : champLoopF o K ((sortDedup (runRound o K choices n).1).length + 1)
      (sortDedup (runRound o K choices n).1) (runRound o K choices n).2 with
  | none => rw [hcl] at h; cases h
  | some p =>
    obtain ⟨u, m⟩ := p
    rw [hcl] at h
    have hfd : finalDecision o u m = (ans, n') := Option.some.inj h
    have h1 : ans = (finalDecision o u m).1 := by rw [hfd]
    rcases finalDecision_mem o u m with h2 | h2
    · exact absurd (h1.trans h2) hne
    · have h3 : ans ∈ u := h1 ▸ h2
      have h4 : ans ∈ sortDedup (runRound o K choices n).1 :=
        champLoopF_subset o K _ _ _ _ _ hcl ans h3
      exact runRound_subset o K choices n ans (mem_sortDedup.mp h4)

/-- Witness for C1: a concrete run whose non-null answer is verified to be a
member of the original candidate list. -/
theorem claim_C1_winner_membership_witness :
    processCategory oracleHead 20 ["b", "a"] 0 = some ("b", 1) ∧
      ("b" : String) ∈ (["b", "a"] : List String) :=
  ⟨by decide,
   claim_C1_winner_membership.2.2 oracleHead 20 ["b", "a"] 0 "b" 1 (by decide) (by decide)⟩

/-- Claim C2: the final decision of a category tournament is by case analysis
on the deduplicated winner set: 0 unique winners give `"NULL"`; exactly 1
unique winner is the result directly with no further oracle call (the counter
does not advance); 2 or more trigger exactly one final oracle call over the
full remaining set, and a returned value that is not a member of that set is
forced to `"NULL"`.  (`processCategory` applies `finalDecision` to the set the
championship loop leaves, which has at most `chunk_size` elements.) -/
theorem claim_C2_final_decision (o : Oracle) (u : List String) (n : Nat) :
    (u = [] → finalDecision o u n = ("NULL", n)) ∧
    (∀ w, u = [w] → finalDecision o u n = (w, n)) ∧
    (2 ≤ u.length →
      (finalDecision o u n).2 = n + 1 ∧
      (∀ a, o n u = some a → a ∈ u → finalDecision o u n = (a, n + 1)) ∧
      (∀ a, o n u = some a → a ∉ u → finalDecision o u n = ("NULL", n + 1)) ∧
      (o n u = none → finalDecision o u n = ("NULL", n + 1))) := by
  refine ⟨?_, ?_, ?_⟩
  · intro h; subst h; rfl
  · intro w h; subst h; rfl
  · intro h2
    cases u with
    | nil => exact absurd h2 (by simp)
    | cons a u' =>
      cases u' with
      | nil => exact absurd h2 (by simp)
      | cons b rest =>
        refine ⟨?_, ?_, ?_, ?_⟩
        · cases h : o n (a :: b :: rest) with
          | none => simp [finalDecision, h]
          | some x => by_cases hm : x ∈ a :: b :: rest <;> simp [finalDecision, h, hm]
        · intro x hx hmem
          simp [finalDecision, hx, hmem]
        · intro x hx hmem
          simp [finalDecision, hx, hmem]
        · intro hx
          simp [finalDecision, hx]

/-- Witness for C2: each arm exercised at a concrete input. -/
theorem claim_C2_final_decision_witness :
    finalDecision oracleNone [] 0 = ("NULL", 0) ∧
    finalDecision oracleNone ["a"] 0 = ("a", 0) ∧
    finalDecision (oracleConst "b") ["a", "b"] 0 = ("b", 1) ∧
    finalDecision (oracleConst "c") ["a", "b"] 0 = ("NULL", 1) ∧
    finalDecision oracleNone ["a", "b"] 0 = ("NULL", 1) :=
  ⟨(claim_C2_final_decision oracleNone [] 0).1 rfl,
   (claim_C2_final_decision oracleNone ["a"] 0).2.1 "a" rfl,
   ((claim_C2_final_decision (oracleConst "b") ["a", "b"] 0).2.2 (by decide)).2.1
     "b" rfl (by decide),
   ((claim_C2_final_decision (oracleConst "c") ["a", "b"] 0).2.2 (by decide)).2.2.1
     "c" rfl (by decide),
   ((claim_C2_final_decision oracleNone ["a", "b"] 0).2.2 (by decide)).2.2.2 rfl⟩

/-- Counterexample to Claim C3 as stated: with chunk size 1 (a value the
source's parameter accepts) and an oracle that picks the single offered
candidate of each chunk, a championship round carries the set `a, b` (itself
the genuine round-0 outcome for candidates `a, b`) to the very same
deduplicated set of size 2: the carried set is NOT strictly smaller after
deduplication, and the while-loop never terminates (the engine's fuelled model
returns `none`). -/
theorem claim_C3_counterexample :
    sortDedup (runRound oracleHead 1 ["a", "b"] 0).1 = ["a", "b"] ∧
    ¬ (sortDedup (runRound oracleHead 1 ["a", "b"] 0).1).length <
        (["a", "b"] : List String).length ∧
    processCategory oracleHead 1 ["a", "b"] 0 = none :=
  ⟨by decide, by decide, by decide⟩

/-- Claim C3 as amended: for every oracle the champions of a round are a subset
of the round's candidate set (the carried set is non-increasing), and for every
chunk size K ≥ 2 the deduplicated champion set of a championship round (run on
a set larger than K) is strictly smaller than its input, so the championship
while-loop terminates for every input and every deterministic or
nondeterministic oracle; for chunk size 1 the set need not shrink and the loop
need not terminate. -/
theorem claim_C3_amended (o : Oracle) (K : Nat) (u : List String) (n : Nat) :
    (∀ x ∈ (runRound o K u n).1, x ∈ u) ∧
    (2 ≤ K → K < u.length →
      (sortDedup (runRound o K u n).1).length < u.length) ∧
    (2 ≤ K → (champLoopF o K (u.length + 1) u n).isSome = true) :=
  ⟨runRound_subset o K u n,
   fun hK hl => round_shrinks o K u n hK hl,
   fun hK => champLoopF_isSome o K hK _ u n (by omega)⟩

/-- Witness for the amended C3, at chunk size 2 on a three-element set. -/
theorem claim_C3_amended_witness :
    (∀ x ∈ (runRound oracleHead 2 ["a", "b", "c"] 0).1,
        x ∈ (["a", "b", "c"] : List String)) ∧
    (sortDedup (runRound oracleHead 2 ["a", "b", "c"] 0).1).length <
        (["a", "b", "c"] : List String).length ∧
    (champLoopF oracleHead 2 ((["a", "b", "c"] : List String).length + 1)
        ["a", "b", "c"] 0).isSome = true :=
  ⟨(claim_C3_amended oracleHead 2 ["a", "b", "c"] 0).1,
   (claim_C3_amended oracleHead 2 ["a", "b", "c"] 0).2.1 (by decide) (by decide),
   (claim_C3_amended oracleHead 2 ["a", "b", "c"] 0).2.2 (by decide)⟩

/-- Claim C4: for every category present in the request whose query string or
candidate list is empty, the dispatcher records a null result under that
category's `_actual` key, makes zero oracle calls for that category (the
remaining categories start from the unchanged call counter `n`), and continues
with the remaining categories; the request as a whole still succeeds.  One arm
per category. -/
theorem claim_C4_empty_pair_null (o : Oracle) (K : Nat) (r : Request) (n : Nat) :
    (∀ q v, r.cell_type_requested = some q → r.cell_type_list = some v →
      (q = "" ∨ isFalsy v = true) →
      process_request_with_chunking o K r n =
        match processPair o K r.binding_molecule_requested r.binding_molecule_list n with
        | none => none
        | some (bm, n2) =>
          match processPair o K r.species_requested r.species_list n2 with
          | none => none
          | some (sp, n3) => some (⟨some none, bm, sp, MATCHER_VERSION⟩, n3)) ∧
    (∀ q v, r.binding_molecule_requested = some q → r.binding_molecule_list = some v →
      (q = "" ∨ isFalsy v = true) →
      process_request_with_chunking o K r n =
        match processPair o K r.cell_type_requested r.cell_type_list n with
        | none => none
        | some (ct, n1) =>
          match processPair o K r.species_requested r.species_list n1 with
          | none => none
          | some (sp, n3) => some (⟨ct, some none, sp, MATCHER_VERSION⟩, n3)) ∧
    (∀ q v, r.species_requested = some q → r.species_list = some v →
      (q = "" ∨ isFalsy v = true) →
      process_request_with_chunking o K r n =
        match processPair o K r.cell_type_requested r.cell_type_list n with
        | none => none
        | some (ct, n1) =>
          match processPair o K r.binding_molecule_requested r.binding_molecule_list n1 with
          | none => none
          | some (bm, n2) => some (⟨ct, bm, some none, MATCHER_VERSION⟩, n2)) := by
  have hskip : ∀ (q : String) (v : ReqValue) (m : Nat), (q = "" ∨ isFalsy v = true) →
      processPair o K (some q) (some v) m = some (some none, m) := by
    intro q v m he
    simp only [processPair]
    rw [if_pos he]
  refine ⟨?_, ?_, ?_⟩
  · intro q v hq hv he
    simp only [process_request_with_chunking, hq, hv, hskip q v n he]
  · intro q v hq hv he
    simp only [process_request_with_chunking, hq, hv]
    cases h1 : processPair o K r.cell_type_requested r.cell_type_list n with
    | none => rfl
    | some p1 =>
      obtain ⟨ct, n1⟩ := p1
      simp only [hskip q v n1 he]
  · intro q v hq hv he
    simp only [process_request_with_chunking, hq, hv]
    cases h1 : processPair o K r.cell_type_requested r.cell_type_list n with
    | none => rfl
    | some p1 =>
      obtain ⟨ct, n1⟩ := p1
      dsimp only
      cases h2 : processPair o K r.binding_molecule_requested r.binding_molecule_list n1 with
      | none => rfl
      | some p2 =>
        obtain ⟨bm, n2⟩ := p2
        dsimp only
        simp only [hskip q v n2 he]

/-- Witness for C4: a request whose three pairs are all present but empty (an
empty query, an empty list, and an empty bare string) yields three recorded
nulls with zero oracle calls. -/
theorem claim_C4_empty_pair_null_witness :
    process_request_with_chunking oracleHead 20
        ⟨some "", some (ReqValue.list ["a"]), some "q", some (ReqValue.list []),
         some "s", some (ReqValue.str "")⟩ 0 =
      some (⟨some none, some none, some none, MATCHER_VERSION⟩, 0) :=
  ((claim_C4_empty_pair_null oracleHead 20
      ⟨some "", some (ReqValue.list ["a"]), some "q", some (ReqValue.list []),
       some "s", some (ReqValue.str "")⟩ 0).1
    "" (ReqValue.list ["a"]) rfl rfl (Or.inl rfl)).trans (by decide)

/-- Counterexample to Claim C5 as stated: a request that provides a candidate
list (`species_list`) without its query passes BOTH pydantic validators when
another valid pair is present, and reaches the matching engine, which simply
ignores the unpaired list (its `_actual` key is absent from the response).  It
is not rejected at the validation boundary. -/
theorem claim_C5_counterexample :
    check_paired_fields ⟨some "x", some ["a"], none, some ["b"], none, none⟩ = true ∧
    check_at_least_one_pair ⟨some "x", some ["a"], none, some ["b"], none, none⟩ = true ∧
    perform_match oracleNone 20 ⟨some "x", some ["a"], none, some ["b"], none, none⟩ 0 =
      Except.ok (some (⟨some (some "NULL"), none, none, MATCHER_VERSION⟩, 1)) :=
  ⟨by decide, by decide, rfl⟩

/-- Claim C5 as amended: `check_paired_fields` rejects exactly the requests in
which some category's query is provided while its candidate list is `None` or
empty — only the query-without-list direction is validated.  A candidate list
provided without its query is not rejected: the dispatcher silently skips such
a category (no oracle call, no `_actual` key).  (A request whose only content
is unpaired lists is still rejected, by `check_at_least_one_pair`; see C6.) -/
theorem claim_C5_amended (r : MatcherRequest) :
    (check_paired_fields r = true ↔
      ((r.cell_type_requested.isSome = true → optListFalsy r.cell_type_list = false) ∧
       (r.species_requested.isSome = true → optListFalsy r.species_list = false) ∧
       (r.binding_molecule_requested.isSome = true →
         optListFalsy r.binding_molecule_list = false))) ∧
    (∀ (o : Oracle) (K : Nat) (v : ReqValue) (n : Nat),
      processPair o K none (some v) n = some (none, n)) := by
  constructor
  · cases ha : r.cell_type_requested.isSome <;>
      cases hb : optListFalsy r.cell_type_list <;>
        cases hc : r.species_requested.isSome <;>
          cases hd : optListFalsy r.species_list <;>
            cases he : r.binding_molecule_requested.isSome <;>
              cases hf : optListFalsy r.binding_molecule_list <;>
                simp [check_paired_fields, ha, hb, hc, hd, he, hf]
  · intro o K v n
    rfl

/-- Witness for the amended C5: a query without its list is rejected, while an
unpaired list is skipped by the dispatcher with no oracle call. -/
theorem claim_C5_amended_witness :
    check_paired_fields ⟨some "x", none, none, none, none, none⟩ = false ∧
    processPair oracleNone 20 none (some (ReqValue.list ["b"])) 0 = some (none, 0) := by
  constructor
  · have h := (claim_C5_amended ⟨some "x", none, none, none, none, none⟩).1
    by_contra hc
    rw [Bool.not_eq_false] at hc
    have h2 := (h.mp hc).1 (by decide)
    simp [optListFalsy] at h2
  · exact (claim_C5_amended ⟨some "x", none, none, none, none, none⟩).2
      oracleNone 20 (ReqValue.list ["b"]) 0

/-- Claim C6: a request containing no category pairs at all is rejected at the
validation boundary (the second pydantic validator), so the matching engine is
never invoked and no oracle call is made for such a request. -/
theorem claim_C6_no_pairs_rejected (o : Oracle) (K : Nat) (n : Nat) :
    check_at_least_one_pair ⟨none, none, none, none, none, none⟩ = false ∧
    perform_match o K ⟨none, none, none, none, none, none⟩ n =
      Except.error "Request must contain at least one category to match." :=
  ⟨rfl, rfl⟩

/-- Counterexample to Claim C7 as stated: 2 candidates with chunk size 20 and a
deterministic stub oracle that always answers the first offered candidate make
exactly 1 oracle call (round 0 yields a single unique champion, so no final
round happens), while the claimed formula predicts
`ceil(2/20) + 1 = 2` calls. -/
theorem claim_C7_counterexample :
    processCategory oracleHead 20 ["a", "b"] 0 = some ("a", 1) ∧
    ((["a", "b"] : List String).length + 20 - 1) / 20 + 1 = 2 ∧
    (1 : Nat) ≠ 2 :=
  ⟨by decide, by decide, by decide⟩

/-- Claim C7 as amended: every tournament round over a set of size `M` costs
exactly `ceil(M/K)` oracle calls (for `1 ≤ K`), the final decision costs one
further call exactly when at least 2 unique champions remain — and zero calls
otherwise, which is where the claimed unconditional `+ 1` fails — and the
end-to-end scenario holds: 45 candidates with `K = 20` whose round 0 yields 3
distinct champions cost exactly 4 oracle calls. -/
theorem claim_C7_amended :
    (∀ (o : Oracle) (K : Nat) (cands : List String) (n : Nat), 1 ≤ K →
        (runRound o K cands n).2 = n + (cands.length + K - 1) / K) ∧
    (∀ (o : Oracle) (uniq : List String) (n : Nat),
        (finalDecision o uniq n).2 = n + (if 2 ≤ uniq.length then 1 else 0)) ∧
    processCategory oracleHead 20 cands45 0 = some ("x0", 4) := by
  refine ⟨?_, finalDecision_snd, by decide⟩
  intro o K cands n hK
  rw [runRound_snd, chunksOf_length K hK]

/-- Witness for the amended C7: round 0 over the 45-candidate scenario costs
`ceil(45/20) = 3` calls. -/
theorem claim_C7_amended_witness :
    (runRound oracleHead 20 cands45 0).2 = 0 + (cands45.length + 20 - 1) / 20 :=
  claim_C7_amended.1 oracleHead 20 cands45 0 (by decide)

lemma handleClientGo_close_once (proc : List Nat → Option (List Nat)) :
    ∀ (fuel : Nat) (stream : List Nat), (handleClientGo proc fuel stream).2.2 = 1 := by
  intro fuel
  induction fuel with
  | zero =>
    intro stream
    match stream with
    | [] => rfl
    | b :: bs => rfl
  | succ fuel ih =>
    intro stream
    match stream with
    | [] => rfl
    | b :: bs =>
      simp only [handleClientGo]
      split
      · rfl
      · split
        · rfl
        · split
          · rfl
          · exact ih _

/-- Claim C8: if the peer closes the stream after a 4-byte length prefix
announcing 10 bytes but after sending only 5 payload bytes, the session treats
it as a transport error: it ends in the `transportError` classification with
no response frame written and with the connection released exactly once; and
on every exit path, for every stream and every processing function, the
connection is released exactly once.  (The model is a total function, so the
session provably does not hang: `recv` on a closed stream returns at once.) -/
theorem claim_C8_midframe_close :
    (∀ proc : List Nat → Option (List Nat),
        handleClient proc [0, 0, 0, 10, 1, 2, 3, 4, 5] =
          ([], SessionExit.transportError, 1)) ∧
    (∀ (proc : List Nat → Option (List Nat)) (stream : List Nat),
        (handleClient proc stream).2.2 = 1) :=
  ⟨fun _ => rfl, fun proc stream => handleClientGo_close_once proc stream.length stream⟩

/-- Claim C9: a candidate equal to the literal `"NULL"` or to the empty string
can never be returned as a match: at every round (initial and championship
rounds both run `collectChamps`) a falsy or `"NULL"` oracle answer is treated
as a decline, so such a string never enters any champion set; and a category
tournament's final answer is never the empty string (when it is `"NULL"` it is
the no-match sentinel produced by the engine, never a surviving candidate,
since champion sets exclude the string `"NULL"`). -/
theorem claim_C9_null_empty_never_match :
    (∀ (o : Oracle) (cs : List (List String)) (n : Nat) (x : String),
        x ∈ (collectChamps o cs n).1 → x ≠ "" ∧ x ≠ "NULL") ∧
    (∀ (o : Oracle) (K : Nat) (choices : List String) (n : Nat) (ans : String) (n' : Nat),
        processCategory o K choices n = some (ans, n') → ans ≠ "") := by
  constructor
  · intro o cs n x hx
    exact (collectChamps_mem o cs n x hx).2
  · intro o K choices n ans n' h
    simp only [processCategory] at h
    cases hcl : champLoopF o K ((sortDedup (runRound o K choices n).1).length + 1)
        (sortDedup (runRound o K choices n).1) (runRound o K choices n).2 with
    | none => rw [hcl] at h; cases h
    | some p =>
      obtain ⟨u, m⟩ := p
      rw [hcl] at h
      have hfd : finalDecision o u m = (ans, n') := Option.some.inj h
      have h1 : ans = (finalDecision o u m).1 := by rw [hfd]
      rcases finalDecision_mem o u m with h2 | h2
      · rw [h1, h2]
        decide
      · have h3 : ans ∈ u := h1 ▸ h2
        have h4 : ans ∈ sortDedup (runRound o K choices n).1 :=
          champLoopF_subset o K _ _ _ _ _ hcl ans h3
        exact (collectChamps_mem o _ _ ans (mem_sortDedup.mp h4)).2.1

/-- Witness for C9: a concrete run whose answer is verified non-empty. -/
theorem claim_C9_null_empty_never_match_witness :
    processCategory oracleHead 20 ["a"] 0 = some ("a", 1) ∧ ("a" : String) ≠ "" :=
  ⟨by decide,
   claim_C9_null_empty_never_match.2 oracleHead 20 ["a"] 0 "a" 1 (by decide)⟩

/-- Claim C10: whenever `process_request_with_chunking` returns, its response
dictionary carries `matcher_version = "2.0"`; and an input dictionary with no
recognised category key pair (the all-absent request) is not rejected — it
yields exactly the one-entry dictionary with the version tag, with zero oracle
calls (the counter is unchanged). -/
theorem claim_C10_version_tag :
    (∀ (o : Oracle) (K : Nat) (r : Request) (n : Nat) (resp : Response) (n' : Nat),
        process_request_with_chunking o K r n = some (resp, n') →
        resp.matcher_version = MATCHER_VERSION) ∧
    (∀ (o : Oracle) (K : Nat) (n : Nat),
        process_request_with_chunking o K ⟨none, none, none, none, none, none⟩ n =
          some (⟨none, none, none, MATCHER_VERSION⟩, n)) := by
  constructor
  · intro o K r n resp n' h
    simp only [process_request_with_chunking] at h
    cases h1 : processPair o K r.cell_type_requested r.cell_type_list n with
    | none => rw [h1] at h; cases h
    | some p1 =>
      obtain ⟨ct, n1⟩ := p1
      rw [h1] at h
      dsimp only at h
      cases h2 : processPair o K r.binding_molecule_requested r.binding_molecule_list n1 with
      | none => rw [h2] at h; cases h
      | some p2 =>
        obtain ⟨bm, n2⟩ := p2
        rw [h2] at h
        dsimp only at h
        cases h3 : processPair o K r.species_requested r.species_list n2 with
        | none => rw [h3] at h; cases h
        | some p3 =>
          obtain ⟨sp, n3⟩ := p3
          rw [h3] at h
          dsimp only at h
          have hp := Option.some.inj h
          have hr : resp = ⟨ct, bm, sp, MATCHER_VERSION⟩ := (congrArg Prod.fst hp).symm
          rw [hr]
  · intro o K n
    rfl

/-- Witness for C10: the version tag of a concrete returned response. -/
theorem claim_C10_version_tag_witness :
    process_request_with_chunking oracleHead 20 ⟨none, none, none, none, none, none⟩ 0 =
      some (⟨none, none, none, MATCHER_VERSION⟩, 0) ∧
    (⟨none, none, none, MATCHER_VERSION⟩ : Response).matcher_version = MATCHER_VERSION :=
  ⟨by decide,
   claim_C10_version_tag.1 oracleHead 20 ⟨none, none, none, none, none, none⟩ 0
     ⟨none, none, none, MATCHER_VERSION⟩ 0 (by decide)⟩

end GameMatcher
